import Mathlib

/-
Verification of the variable save/load and inference-model serialization
module of the Paddle fluid Python package (python/paddle/v2/fluid/io.py).

The module is glue code over an external framework: programs (computation
graphs) hold variables and operator nodes; an injected executor runs a
program; `prune`, `inference_optimize`, description serialization and
parsing belong to the framework and are taken as parameters or modelled
from the specification where noted.  Python object mutation is rendered as
explicit state passing: functions return the final value of every object
they could have mutated, and a log of the programs handed to the executor.
-/

set_option autoImplicit false

namespace PaddleFluid

/-- Variable type tags used by the module (core.VarDesc.VarType): only
FEED_MINIBATCH and FETCH_LIST are mentioned by io.py; all other tags are
collapsed into LOD_TENSOR/OTHER. -/
inductive VarType where
  | LOD_TENSOR
  | FEED_MINIBATCH
  | FETCH_LIST
  | OTHER
  deriving DecidableEq

/-- A graph variable.  `isParam` records whether the Python object is an
instance of the Parameter subclass; `persistable` is the framework flag
that marks a variable as surviving across executions. -/
structure Variable where
  name : String
  shape : List Int
  dtype : Nat
  vtype : VarType
  lod_level : Nat
  persistable : Bool
  isParam : Bool
  deriving DecidableEq

/-- Attribute values appearing on the operators emitted by io.py:
a file path string or an integer column index. -/
inductive AttrVal where
  | str (s : String)
  | int (n : Nat)
  deriving DecidableEq

/-- An operator node: a type tag plus named input/output slots (lists of
variable names, as in the underlying op description) and attributes. -/
structure Op where
  type : String
  inputs : List (String × List String)
  outputs : List (String × List String)
  attrs : List (String × AttrVal)
  deriving DecidableEq

/-- A program with its global block: the block's variables and operators.
io.py only ever touches the global block, so the block is inlined. -/
structure Program where
  vars : List Variable
  ops : List Op
  deriving DecidableEq

/-- Program(): a fresh empty program. -/
def Program.empty : Program := { vars := [], ops := [] }

/-- Program.list_vars: all variables of the (global) block. -/
def Program.list_vars (p : Program) : List Variable := p.vars

/-- Block.create_var: registers a new variable in the block and returns it. -/
def createVar (p : Program) (v : Variable) : Program :=
  { p with vars := p.vars ++ [v] }

/-- Block.var(name): look up a variable of the block by name. -/
def blockVar (p : Program) (name : String) : Option Variable :=
  p.vars.find? (fun v => v.name == name)

/-- Block.append_op: add an operator at the end of the block. -/
def appendOp (p : Program) (op : Op) : Program :=
  { p with ops := p.ops ++ [op] }

/-- Block.prepend_op: add an operator at the front of the block. -/
def prependOp (p : Program) (op : Op) : Program :=
  { p with ops := op :: p.ops }

/-- str.startswith, computed on the underlying character list. -/
def strStartsWith (s pre : String) : Bool := pre.data.isPrefixOf s.data

/-- str.endswith, computed on the underlying character list. -/
def strEndsWith (s suf : String) : Bool := suf.data.isSuffixOf s.data

/-- os.path.join for two POSIX path components, as Python defines it. -/
def osPathJoin (a b : String) : String :=
  if strStartsWith b "/" then b
  else if a == "" || strEndsWith a "/" then a ++ b
  else a ++ "/" ++ b

/-- is_parameter: whether the variable is a Parameter instance. -/
def is_parameter (v : Variable) : Bool := v.isParam

/-- is_persistable: the variable's persistable flag. -/
def is_persistable (v : Variable) : Bool := v.persistable

/-- The variable built by _clone_var_in_block_: same name, shape, dtype,
type and lod_level, persistable set to True; created as a plain Variable,
hence not a Parameter instance. -/
def clonedVar (v : Variable) : Variable :=
  { name := v.name, shape := v.shape, dtype := v.dtype, vtype := v.vtype,
    lod_level := v.lod_level, persistable := true, isParam := false }

/-- Python _clone_var_in_block_(block, var): create the clone in the block
and return it together with the updated block. -/
def cloneVarInBlock (p : Program) (v : Variable) : Variable × Program :=
  (clonedVar v, createVar p (clonedVar v))

/-- The 'save' operator emitted by save_vars for a cloned variable. -/
def mkSaveOp (dirname : String) (name : String) : Op :=
  { type := "save", inputs := [("X", [name])], outputs := [],
    attrs := [("file_path", AttrVal.str (osPathJoin dirname name))] }

/-- The 'load' operator emitted by load_vars for a cloned variable. -/
def mkLoadOp (dirname : String) (name : String) : Op :=
  { type := "load", inputs := [], outputs := [("Out", [name])],
    attrs := [("file_path", AttrVal.str (osPathJoin dirname name))] }

/-- The loop body of save_vars over the given variables: clone each
variable into the block and append its save operator. -/
def buildSaveProgram (dirname : String) (p : Program) : List Variable → Program
  | [] => p
  | v :: rest =>
    let c := cloneVarInBlock p v
    buildSaveProgram dirname (appendOp c.2 (mkSaveOp dirname c.1.name)) rest

/-- The loop body of load_vars over the given variables: clone each
variable into the block and append its load operator. -/
def buildLoadProgram (dirname : String) (p : Program) : List Variable → Program
  | [] => p
  | v :: rest =>
    let c := cloneVarInBlock p v
    buildLoadProgram dirname (appendOp c.2 (mkLoadOp dirname c.1.name)) rest

/-- Python exceptions raised (or propagated) by the module. -/
inductive PyError where
  | typeError
  | valueError
  | ioError
  deriving DecidableEq

/-- The main_program argument of save_vars/load_vars: None, a Program
instance, or any other Python value (which fails the isinstance check). -/
inductive ProgArg where
  | noneArg
  | progArg (p : Program)
  | otherArg
  deriving DecidableEq

/-- File system state: the set of existing directories and a map from full
file path to contents. -/
structure FileSystem where
  dirs : List String
  files : List (String × String)
  deriving DecidableEq

/-- os.path.isdir. -/
def isDir (fs : FileSystem) (d : String) : Bool := fs.dirs.contains d

/-- os.makedirs. -/
def makedirs (fs : FileSystem) (d : String) : FileSystem :=
  { fs with dirs := d :: fs.dirs }

/-- Writing a file (open for write plus write): replaces any previous
contents at that path. -/
def writeFile (fs : FileSystem) (path contents : String) : FileSystem :=
  { fs with files := (path, contents) :: fs.files.filter (fun pc => pc.1 != path) }

/-- Reading a file: some contents when the path exists, none otherwise. -/
def readFile (fs : FileSystem) (path : String) : Option String :=
  fs.files.lookup path

/-- Whether a file exists at the path. -/
def hasFile (fs : FileSystem) (path : String) : Bool :=
  (readFile fs path).isSome

/-- The names of the files lying directly in directory d (the [2] component
of the first os.walk(d) entry): paths of the form d ++ "/" ++ name with no
further slash in name. -/
def filesInDir (fs : FileSystem) (d : String) : List String :=
  fs.files.filterMap (fun pc =>
    if strStartsWith pc.1 (d ++ "/") then
      let rest := String.mk (pc.1.data.drop (d ++ "/").data.length)
      if rest.data.contains '/' then none else some rest
    else none)

/-- The file_path attribute of an operator, when present. -/
def opFilePath (op : Op) : Option String :=
  match op.attrs.lookup "file_path" with
  | some (AttrVal.str s) => some s
  | _ => none

/-- Modelled from the spec: the injected executor (external framework) runs
the operators of a save program in order; each 'save' operator writes its
variable "to disk as a named file" at the operator's file_path attribute.
Tensor contents are outside this module and abstracted to the empty string. -/
def execRunSaveOps (fs : FileSystem) : List Op → FileSystem
  | [] => fs
  | op :: rest =>
    execRunSaveOps
      (if op.type == "save" then
        match opFilePath op with
        | some path => writeFile fs path ""
        | none => fs
      else fs) rest

/-- Run a save program through the executor. -/
def execRunSave (fs : FileSystem) (p : Program) : FileSystem :=
  execRunSaveOps fs p.ops

/-- Result of save_vars: the throwaway program built (when one was), the
programs handed to executor.run, the file system after those runs, the
final value of the caller's main_program and vars arguments (threaded
explicitly because Python could have mutated them), and the exception. -/
structure SaveOut where
  built : Option Program
  runs : List Program
  fs : FileSystem
  mainAfter : ProgArg
  varsAfter : Option (List Variable)
  err : Option PyError
  deriving DecidableEq

/-- The vars-given branch of save_vars: build the fresh save program, then
executor.run it once. -/
def save_vars_list (dirname : String) (vs : List Variable) (fs : FileSystem) : SaveOut :=
  let saveProg := buildSaveProgram dirname Program.empty vs
  { built := some saveProg, runs := [saveProg], fs := execRunSave fs saveProg,
    mainAfter := ProgArg.noneArg, varsAfter := some vs, err := none }

/-- save_vars(executor, dirname, main_program, vars, predicate).  With
vars=None the main_program (default default_main_program(), here the
defaultProg argument) is type-checked and its variables filtered by the
predicate; otherwise one save op per variable is emitted into a fresh
program which is run once. -/
def save_vars (dirname : String) (mainArg : ProgArg) (defaultProg : Program)
    (vars : Option (List Variable)) (predicate : Variable → Bool)
    (fs : FileSystem) : SaveOut :=
  match vars with
  | some vs =>
    let r := save_vars_list dirname vs fs
    { r with mainAfter := mainArg, varsAfter := some vs }
  | none =>
    match mainArg with
    | ProgArg.otherArg =>
      { built := none, runs := [], fs := fs, mainAfter := ProgArg.otherArg,
        varsAfter := none, err := some PyError.typeError }
    | ProgArg.noneArg =>
      let r := save_vars_list dirname (defaultProg.list_vars.filter predicate) fs
      { r with mainAfter := ProgArg.noneArg, varsAfter := none }
    | ProgArg.progArg mp =>
      let r := save_vars_list dirname (mp.list_vars.filter predicate) fs
      { r with mainAfter := ProgArg.progArg mp, varsAfter := none }

/-- save_params: save_vars with the is_parameter predicate. -/
def save_params (dirname : String) (mainArg : ProgArg) (defaultProg : Program)
    (fs : FileSystem) : SaveOut :=
  save_vars dirname mainArg defaultProg none is_parameter fs

/-- save_persistables: save_vars with the is_persistable predicate. -/
def save_persistables (dirname : String) (mainArg : ProgArg)
    (defaultProg : Program) (fs : FileSystem) : SaveOut :=
  save_vars dirname mainArg defaultProg none is_persistable fs

/-- Result of load_vars: as SaveOut, but the executor's load runs do not
change the modelled file system, so no fs field is needed. -/
structure LoadOut where
  built : Option Program
  runs : List Program
  mainAfter : ProgArg
  varsAfter : Option (List Variable)
  err : Option PyError
  deriving DecidableEq

/-- The vars-given branch of load_vars. -/
def load_vars_list (dirname : String) (vs : List Variable) : LoadOut :=
  let loadProg := buildLoadProgram dirname Program.empty vs
  { built := some loadProg, runs := [loadProg],
    mainAfter := ProgArg.noneArg, varsAfter := some vs, err := none }

/-- load_vars(executor, dirname, main_program, vars, predicate): mirror of
save_vars emitting 'load' operators. -/
def load_vars (dirname : String) (mainArg : ProgArg) (defaultProg : Program)
    (vars : Option (List Variable)) (predicate : Variable → Bool) : LoadOut :=
  match vars with
  | some vs =>
    let r := load_vars_list dirname vs
    { r with mainAfter := mainArg, varsAfter := some vs }
  | none =>
    match mainArg with
    | ProgArg.otherArg =>
      { built := none, runs := [], mainAfter := ProgArg.otherArg,
        varsAfter := none, err := some PyError.typeError }
    | ProgArg.noneArg =>
      let r := load_vars_list dirname (defaultProg.list_vars.filter predicate)
      { r with mainAfter := ProgArg.noneArg, varsAfter := none }
    | ProgArg.progArg mp =>
      let r := load_vars_list dirname (mp.list_vars.filter predicate)
      { r with mainAfter := ProgArg.progArg mp, varsAfter := none }

/-- load_params: load_vars with the is_parameter predicate. -/
def load_params (dirname : String) (mainArg : ProgArg) (defaultProg : Program) : LoadOut :=
  load_vars dirname mainArg defaultProg none is_parameter

/-- load_persistables: load_vars with the is_persistable predicate. -/
def load_persistables (dirname : String) (mainArg : ProgArg) (defaultProg : Program) : LoadOut :=
  load_vars dirname mainArg defaultProg none is_persistable

/-- load_persistables_if_exist: list the files directly in dirname and load
exactly the variables of the program that are persistable and whose name is
among those files. -/
def load_persistables_if_exist (dirname : String) (fs : FileSystem)
    (mainArg : ProgArg) (defaultProg : Program) : LoadOut :=
  let filenames := filesInDir fs dirname
  load_vars dirname mainArg defaultProg none
    (fun v => is_persistable v && filenames.contains v.name)

/-- A target passed to get_inference_program: a Variable, or an Evaluator
(of which only its states and metrics lists matter here). -/
inductive TargetItem where
  | varItem (v : Variable)
  | evalItem (states : List Variable) (metrics : List Variable)
  deriving DecidableEq

/-- The target_vars argument of get_inference_program: a bare (non-list)
target or a Python list of targets. -/
inductive TargetsArg where
  | single (t : TargetItem)
  | list (ts : List TargetItem)
  deriving DecidableEq

/-- The loop of get_inference_program accumulating the expanded variable
list: an Evaluator contributes its states then its metrics, a Variable
contributes itself. -/
def expandTargetsLoop (acc : List Variable) : List TargetItem → List Variable
  | [] => acc
  | TargetItem.varItem v :: rest => expandTargetsLoop (acc ++ [v]) rest
  | TargetItem.evalItem st m :: rest => expandTargetsLoop (acc ++ st ++ m) rest

/-- Direct form of the expansion: each Evaluator replaced by its states
followed by its metrics, in list order. -/
def expandTargets : List TargetItem → List Variable
  | [] => []
  | TargetItem.varItem v :: rest => v :: expandTargets rest
  | TargetItem.evalItem st m :: rest => st ++ m ++ expandTargets rest

/-- get_inference_program(target_vars, main_program): wrap a bare target,
expand Evaluators, then prune the program to the targets and run
inference_optimize.  prune and inference_optimize belong to the external
framework and are taken as parameters. -/
def get_inference_program (pruneF : Program → List Variable → Program)
    (infOptF : Program → Program) (targets : TargetsArg)
    (mainArg : Option Program) (defaultProg : Program) : Program :=
  let mp := match mainArg with
    | none => defaultProg
    | some m => m
  let ts := match targets with
    | TargetsArg.single t => [t]
    | TargetsArg.list l => l
  infOptF (pruneF mp (expandTargetsLoop [] ts))

/-- The feed holder variable created by prepend_feed_ops. -/
def mkFeedVar (holder : String) : Variable :=
  { name := holder, shape := [], dtype := 0, vtype := VarType.FEED_MINIBATCH,
    lod_level := 0, persistable := true, isParam := false }

/-- The fetch holder variable created by append_fetch_ops. -/
def mkFetchVar (holder : String) : Variable :=
  { name := holder, shape := [], dtype := 0, vtype := VarType.FETCH_LIST,
    lod_level := 0, persistable := true, isParam := false }

/-- The 'feed' operator for column i feeding the named output variable. -/
def feedOp (i : Nat) (holder outName : String) : Op :=
  { type := "feed", inputs := [("X", [holder])], outputs := [("Out", [outName])],
    attrs := [("col", AttrVal.int i)] }

/-- The 'fetch' operator for column i fetching the named input variable. -/
def fetchOp (i : Nat) (inName holder : String) : Op :=
  { type := "fetch", inputs := [("X", [inName])], outputs := [("Out", [holder])],
    attrs := [("col", AttrVal.int i)] }

/-- The loop of prepend_feed_ops: for the i-th name look its variable up in
the block (Block.var raises when absent) and prepend a feed op with column
attribute i. -/
def prependFeedLoop (holder : String) : Program → Nat → List String → Except PyError Program
  | p, _, [] => Except.ok p
  | p, i, name :: rest =>
    match blockVar p name with
    | none => Except.error PyError.valueError
    | some out => prependFeedLoop holder (prependOp p (feedOp i holder out.name)) (i + 1) rest

/-- prepend_feed_ops(inference_program, feed_target_names, feed_holder_name):
create the feed holder variable, then prepend one feed op per name. -/
def prepend_feed_ops (p : Program) (feedTargetNames : List String)
    (feedHolderName : String) : Except PyError Program :=
  prependFeedLoop feedHolderName (createVar p (mkFeedVar feedHolderName)) 0 feedTargetNames

/-- The loop of append_fetch_ops: append a fetch op with column i for the
i-th name (the name is used directly, no block lookup). -/
def appendFetchLoop (holder : String) : Program → Nat → List String → Program
  | p, _, [] => p
  | p, i, name :: rest =>
    appendFetchLoop holder (appendOp p (fetchOp i name holder)) (i + 1) rest

/-- append_fetch_ops(inference_program, fetch_target_names, fetch_holder_name). -/
def append_fetch_ops (p : Program) (fetchTargetNames : List String)
    (fetchHolderName : String) : Program :=
  appendFetchLoop fetchHolderName (createVar p (mkFetchVar fetchHolderName)) 0 fetchTargetNames

/-- An element of the feeded_var_names list: a str or some other value. -/
inductive FeedElem where
  | strElem (s : String)
  | nonStrElem
  deriving DecidableEq

/-- The feeded_var_names argument: a single str or a list. -/
inductive FeedArg where
  | strArg (s : String)
  | listArg (l : List FeedElem)
  deriving DecidableEq

/-- An element of the target_vars list: a Variable or some other value. -/
inductive TargetElem where
  | varElem (v : Variable)
  | nonVarElem
  deriving DecidableEq

/-- The target_vars argument of save_inference_model: a single Variable or
a list. -/
inductive TargetArg where
  | varArg (v : Variable)
  | listArg (l : List TargetElem)
  deriving DecidableEq

/-- The string payload of a feed element, when it is one. -/
def feedElemStr : FeedElem → Option String
  | FeedElem.strElem s => some s
  | FeedElem.nonStrElem => none

/-- The variable payload of a target element, when it is one. -/
def targetElemVar : TargetElem → Option Variable
  | TargetElem.varElem v => some v
  | TargetElem.nonVarElem => none

/-- The feeded_var_names validation of save_inference_model: a single str
is wrapped into a one-element list; a list must be non-empty (bool of the
list) with every element a str, else ValueError. -/
def checkFeedArg : FeedArg → Except PyError (List String)
  | FeedArg.strArg s => Except.ok [s]
  | FeedArg.listArg l =>
    if !l.isEmpty && l.all (fun e => (feedElemStr e).isSome) then
      Except.ok (l.filterMap feedElemStr)
    else
      Except.error PyError.valueError

/-- The target_vars validation of save_inference_model: a single Variable
is wrapped; a list must be non-empty with every element a Variable, else
ValueError. -/
def checkTargetArg : TargetArg → Except PyError (List Variable)
  | TargetArg.varArg v => Except.ok [v]
  | TargetArg.listArg l =>
    if !l.isEmpty && l.all (fun e => (targetElemVar e).isSome) then
      Except.ok (l.filterMap targetElemVar)
    else
      Except.error PyError.valueError

/-- Result of save_inference_model: file system after all writes, programs
handed to the executor, the feed/fetch-augmented inference program (when
reached), and the exception. -/
structure SIMOut where
  fs : FileSystem
  runs : List Program
  inferenceProgram : Option Program
  err : Option PyError
  deriving DecidableEq

/-- save_inference_model(dirname, feeded_var_names, target_vars, executor,
main_program): validate the two list arguments, create dirname when it is
not a directory, prune the main program to the targets and
inference-optimize it, prepend feed ops and append fetch ops, write the
serialized description to dirname + "/__model__", then save_params on the
original main program.  pruneF, infOptF and serializeF stand for the
framework's prune, inference_optimize and desc.serialize_to_string. -/
def save_inference_model (dirname : String) (feedArg : FeedArg)
    (targetArg : TargetArg) (mainArg : Option Program) (defaultProg : Program)
    (pruneF : Program → List Variable → Program) (infOptF : Program → Program)
    (serializeF : Program → String) (fs : FileSystem) : SIMOut :=
  match checkFeedArg feedArg with
  | Except.error e => { fs := fs, runs := [], inferenceProgram := none, err := some e }
  | Except.ok feedVarNames =>
    match checkTargetArg targetArg with
    | Except.error e => { fs := fs, runs := [], inferenceProgram := none, err := some e }
    | Except.ok targetVars =>
      let mp := match mainArg with
        | none => defaultProg
        | some m => m
      let fs1 := if isDir fs dirname = false then makedirs fs dirname else fs
      let prunedProgram := pruneF mp targetVars
      let inferenceProgram := infOptF prunedProgram
      let fetchVarNames := targetVars.map Variable.name
      match prepend_feed_ops inferenceProgram feedVarNames "feed" with
      | Except.error e => { fs := fs1, runs := [], inferenceProgram := none, err := some e }
      | Except.ok p1 =>
        let p2 := append_fetch_ops p1 fetchVarNames "fetch"
        let fs2 := writeFile fs1 (dirname ++ "/__model__") (serializeF p2)
        let sp := save_params dirname (ProgArg.progArg mp) defaultProg fs2
        { fs := sp.fs, runs := sp.runs, inferenceProgram := some p2, err := none }

/-- get_feed_targets_names(program): scan the global block's ops; for each
'feed' op insert its first 'Out' output name at the front of the result. -/
def get_feed_targets_names (p : Program) : List String :=
  p.ops.foldl
    (fun acc op =>
      if op.type == "feed" then (((op.outputs.lookup "Out").getD []).headD "") :: acc
      else acc) []

/-- get_fetch_targets_names(program): scan the global block's ops; for each
'fetch' op append its first 'X' input name to the result. -/
def get_fetch_targets_names (p : Program) : List String :=
  p.ops.foldl
    (fun acc op =>
      if op.type == "fetch" then acc ++ [((op.inputs.lookup "X").getD []).headD ""]
      else acc) []

/-- The list comprehension of load_inference_model looking every fetch
target name up in the program's global block (Block.var raises on a
missing name). -/
def lookupVars (p : Program) : List String → Option (List Variable)
  | [] => some []
  | n :: rest =>
    match blockVar p n with
    | none => none
    | some v =>
      match lookupVars p rest with
      | none => none
      | some vs => some (v :: vs)

/-- Result of load_inference_model: the parsed program, feed target names,
fetch target variables, the programs handed to the executor, and the
exception. -/
structure LIMOut where
  program : Option Program
  feedTargetNames : List String
  fetchTargets : List Variable
  runs : List Program
  err : Option PyError
  deriving DecidableEq

/-- load_inference_model(dirname, executor): ValueError when dirname is not
a directory; otherwise open dirname + "/__model__" (the open itself raises
an IOError when the file is absent — the source performs no existence check
on the file), parse the program, load the persistable variables whose files
exist, and read the feed/fetch targets back from the parsed program.
parseF stands for Program.parse_from_string. -/
def load_inference_model (dirname : String) (fs : FileSystem)
    (parseF : String → Program) : LIMOut :=
  if isDir fs dirname = false then
    { program := none, feedTargetNames := [], fetchTargets := [], runs := [],
      err := some PyError.valueError }
  else
    match readFile fs (dirname ++ "/__model__") with
    | none =>
      { program := none, feedTargetNames := [], fetchTargets := [], runs := [],
        err := some PyError.ioError }
    | some programDescStr =>
      let program := parseF programDescStr
      let lo := load_persistables_if_exist dirname fs (ProgArg.progArg program) Program.empty
      let feedTargetNames := get_feed_targets_names program
      let fetchTargetNames := get_fetch_targets_names program
      match lookupVars program fetchTargetNames with
      | none =>
        { program := none, feedTargetNames := feedTargetNames, fetchTargets := [],
          runs := lo.runs, err := some PyError.valueError }
      | some fetchTargets =>
        { program := some program, feedTargetNames := feedTargetNames,
          fetchTargets := fetchTargets, runs := lo.runs, err := none }

/-! Helper lemmas about the embedded operations. -/

theorem buildSaveProgram_eq (dirname : String) (p : Program) (vs : List Variable) :
    buildSaveProgram dirname p vs =
      { vars := p.vars ++ vs.map clonedVar,
        ops := p.ops ++ vs.map (fun v => mkSaveOp dirname v.name) } := by
  induction vs generalizing p with
  | nil => simp [buildSaveProgram]
  | cons v rest ih =>
    simp [buildSaveProgram, cloneVarInBlock, appendOp, createVar, ih, clonedVar]

theorem buildLoadProgram_eq (dirname : String) (p : Program) (vs : List Variable) :
    buildLoadProgram dirname p vs =
      { vars := p.vars ++ vs.map clonedVar,
        ops := p.ops ++ vs.map (fun v => mkLoadOp dirname v.name) } := by
  induction vs generalizing p with
  | nil => simp [buildLoadProgram]
  | cons v rest ih =>
    simp [buildLoadProgram, cloneVarInBlock, appendOp, createVar, ih, clonedVar]

theorem blockVar_name {p : Program} {n : String} {v : Variable}
    (h : blockVar p n = some v) : v.name = n := by
  have hp := List.find?_some h
  exact eq_of_beq hp

theorem blockVar_prependOp (p : Program) (op : Op) (n : String) :
    blockVar (prependOp p op) n = blockVar p n := rfl

/-- The feed operators emitted by prepend_feed_ops, in loop order, columns
counting up from i. -/
def feedOpsFrom (holder : String) (i : Nat) : List String → List Op
  | [] => []
  | n :: rest => feedOp i holder n :: feedOpsFrom holder (i + 1) rest

/-- The fetch operators emitted by append_fetch_ops, in loop order, columns
counting up from i. -/
def fetchOpsFrom (holder : String) (i : Nat) : List String → List Op
  | [] => []
  | n :: rest => fetchOp i n holder :: fetchOpsFrom holder (i + 1) rest

theorem prependFeedLoop_eq (holder : String) (p : Program) (i : Nat)
    (names : List String) (h : ∀ n ∈ names, (blockVar p n).isSome = true) :
    prependFeedLoop holder p i names =
      Except.ok { vars := p.vars, ops := (feedOpsFrom holder i names).reverse ++ p.ops } := by
  induction names generalizing p i with
  | nil => simp [prependFeedLoop, feedOpsFrom]
  | cons n rest ih =>
    have hn : (blockVar p n).isSome = true := h n (by simp)
    obtain ⟨v, hv⟩ := Option.isSome_iff_exists.mp hn
    have hvn : v.name = n := blockVar_name hv
    have hrest : ∀ m ∈ rest, (blockVar (prependOp p (feedOp i holder v.name)) m).isSome = true := by
      intro m hm
      rw [blockVar_prependOp]
      exact h m (by simp [hm])
    have hstep : prependFeedLoop holder p i (n :: rest) =
        prependFeedLoop holder (prependOp p (feedOp i holder v.name)) (i + 1) rest := by
      rw [prependFeedLoop, hv]
    rw [hstep, ih _ _ hrest]
    simp [prependOp, feedOpsFrom, hvn, List.append_assoc]

theorem appendFetchLoop_eq (holder : String) (p : Program) (i : Nat)
    (names : List String) :
    appendFetchLoop holder p i names =
      { vars := p.vars, ops := p.ops ++ fetchOpsFrom holder i names } := by
  induction names generalizing p i with
  | nil => simp [appendFetchLoop, fetchOpsFrom]
  | cons n rest ih =>
    rw [appendFetchLoop, ih]
    simp [appendOp, fetchOpsFrom, List.append_assoc]

theorem prepend_feed_ops_eq (p : Program) (names : List String) (holder : String)
    (h : ∀ n ∈ names, (blockVar (createVar p (mkFeedVar holder)) n).isSome = true) :
    prepend_feed_ops p names holder =
      Except.ok { vars := p.vars ++ [mkFeedVar holder],
                  ops := (feedOpsFrom holder 0 names).reverse ++ p.ops } := by
  rw [prepend_feed_ops, prependFeedLoop_eq _ _ _ _ h]
  rfl

theorem append_fetch_ops_eq (p : Program) (names : List String) (holder : String) :
    append_fetch_ops p names holder =
      { vars := p.vars ++ [mkFetchVar holder],
        ops := p.ops ++ fetchOpsFrom holder 0 names } := by
  rw [append_fetch_ops, appendFetchLoop_eq]
  rfl

/-- The extraction function used by get_feed_targets_names, as a filterMap. -/
def feedOutOf (op : Op) : Option String :=
  if op.type == "feed" then some (((op.outputs.lookup "Out").getD []).headD "")
  else none

/-- The extraction function used by get_fetch_targets_names, as a filterMap. -/
def fetchInOf (op : Op) : Option String :=
  if op.type == "fetch" then some (((op.inputs.lookup "X").getD []).headD "")
  else none

theorem get_feed_targets_names_foldl (ops : List Op) (acc : List String) :
    ops.foldl
      (fun acc op =>
        if op.type == "feed" then (((op.outputs.lookup "Out").getD []).headD "") :: acc
        else acc) acc
      = (ops.filterMap feedOutOf).reverse ++ acc := by
  induction ops generalizing acc with
  | nil => simp
  | cons op rest ih =>
    rw [List.foldl_cons, ih]
    cases hb : op.type == "feed" <;>
      simp [hb, feedOutOf, List.filterMap_cons]

theorem get_feed_targets_names_eq (p : Program) :
    get_feed_targets_names p = (p.ops.filterMap feedOutOf).reverse := by
  rw [get_feed_targets_names, get_feed_targets_names_foldl]
  simp

theorem get_fetch_targets_names_foldl (ops : List Op) (acc : List String) :
    ops.foldl
      (fun acc op =>
        if op.type == "fetch" then acc ++ [((op.inputs.lookup "X").getD []).headD ""]
        else acc) acc
      = acc ++ ops.filterMap fetchInOf := by
  induction ops generalizing acc with
  | nil => simp
  | cons op rest ih =>
    rw [List.foldl_cons, ih]
    cases hb : op.type == "fetch" <;>
      simp [hb, fetchInOf, List.filterMap_cons]

theorem get_fetch_targets_names_eq (p : Program) :
    get_fetch_targets_names p = p.ops.filterMap fetchInOf := by
  rw [get_fetch_targets_names, get_fetch_targets_names_foldl]
  simp

theorem feedOutOf_feedOpsFrom (holder : String) (i : Nat) (names : List String) :
    (feedOpsFrom holder i names).filterMap feedOutOf = names := by
  induction names generalizing i with
  | nil => simp [feedOpsFrom]
  | cons n rest ih => simp [feedOpsFrom, List.filterMap_cons, feedOutOf, feedOp, ih]

theorem fetchInOf_fetchOpsFrom (holder : String) (i : Nat) (names : List String) :
    (fetchOpsFrom holder i names).filterMap fetchInOf = names := by
  induction names generalizing i with
  | nil => simp [fetchOpsFrom]
  | cons n rest ih => simp [fetchOpsFrom, List.filterMap_cons, fetchInOf, fetchOp, ih]

theorem feedOutOf_none_of_not_feed {op : Op} (h : op.type ≠ "feed") :
    feedOutOf op = none := by
  simp [feedOutOf, h]

theorem fetchInOf_none_of_not_fetch {op : Op} (h : op.type ≠ "fetch") :
    fetchInOf op = none := by
  simp [fetchInOf, h]

theorem expandTargetsLoop_eq (acc : List Variable) (ts : List TargetItem) :
    expandTargetsLoop acc ts = acc ++ expandTargets ts := by
  induction ts generalizing acc with
  | nil => simp [expandTargetsLoop, expandTargets]
  | cons t rest ih =>
    cases t with
    | varItem v => simp [expandTargetsLoop, expandTargets, ih]
    | evalItem st m => simp [expandTargetsLoop, expandTargets, ih]

theorem lookup_filter_ne (path q : String) (h : path ≠ q) (l : List (String × String)) :
    List.lookup path (l.filter (fun pc => pc.1 != q)) = List.lookup path l := by
  induction l with
  | nil => rfl
  | cons kv rest ih =>
    obtain ⟨k, v⟩ := kv
    by_cases hk : k = q
    · subst hk
      have h1 : ((k, v).1 != k) = false := by simp
      have h2 : (path == k) = false := by simp [h]
      simp [List.filter_cons, h1, List.lookup, h2, ih]
    · have h1 : ((k, v).1 != q) = true := by simp [hk]
      by_cases hpk : path = k
      · subst hpk
        simp [List.filter_cons, h1, List.lookup]
      · have h2 : (path == k) = false := by simp [hpk]
        simp [List.filter_cons, h1, List.lookup, h2, ih]

theorem readFile_writeFile_self (fs : FileSystem) (path c : String) :
    readFile (writeFile fs path c) path = some c := by
  simp [readFile, writeFile, List.lookup]

theorem readFile_writeFile_ne (fs : FileSystem) (path q c : String) (h : path ≠ q) :
    readFile (writeFile fs q c) path = readFile fs path := by
  have h2 : (path == q) = false := by simp [h]
  simp [readFile, writeFile, List.lookup, h2, lookup_filter_ne path q h]

theorem hasFile_writeFile_mono {fs : FileSystem} {path : String} (q c : String)
    (h : hasFile fs path = true) : hasFile (writeFile fs q c) path = true := by
  by_cases hpq : path = q
  · subst hpq
    simp [hasFile, readFile_writeFile_self]
  · rw [hasFile, readFile_writeFile_ne fs path q c hpq]
    exact h

theorem hasFile_execStep (fs : FileSystem) (op : Op) (path : String)
    (h : hasFile fs path = true) :
    hasFile
      (if op.type == "save" then
        match opFilePath op with
        | some q => writeFile fs q ""
        | none => fs
      else fs) path = true := by
  cases hb : op.type == "save"
  · simpa [hb] using h
  · cases hfp : opFilePath op with
    | none => simpa [hb, hfp] using h
    | some q =>
      simp only [hb, hfp, if_true]
      exact hasFile_writeFile_mono q "" h

theorem hasFile_execRunSaveOps_mono (ops : List Op) (fs : FileSystem) (path : String)
    (h : hasFile fs path = true) : hasFile (execRunSaveOps fs ops) path = true := by
  induction ops generalizing fs with
  | nil => exact h
  | cons op rest ih =>
    rw [execRunSaveOps]
    exact ih _ (hasFile_execStep fs op path h)

theorem hasFile_execRunSaveOps_mem (ops : List Op) (fs : FileSystem) (path : String)
    (op : Op) (hmem : op ∈ ops) (hty : op.type = "save")
    (hfp : opFilePath op = some path) :
    hasFile (execRunSaveOps fs ops) path = true := by
  induction ops generalizing fs with
  | nil => cases hmem
  | cons op2 rest ih =>
    rw [execRunSaveOps]
    rcases List.mem_cons.mp hmem with heq | hmem2
    · subst heq
      apply hasFile_execRunSaveOps_mono
      have hb : (op.type == "save") = true := by simp [hty]
      simp only [hb, hfp, if_true]
      simp [hasFile, readFile_writeFile_self]
    · exact ih _ hmem2

theorem readFile_execRunSaveOps_ne (ops : List Op) (fs : FileSystem) (path : String)
    (h : ∀ op ∈ ops, ∀ q, opFilePath op = some q → q ≠ path) :
    readFile (execRunSaveOps fs ops) path = readFile fs path := by
  induction ops generalizing fs with
  | nil => rfl
  | cons op rest ih =>
    rw [execRunSaveOps, ih _ (fun o ho => h o (List.mem_cons_of_mem _ ho))]
    cases hb : op.type == "save"
    · simp [hb]
    · cases hfp : opFilePath op with
      | none => simp [hb, hfp]
      | some q =>
        have hq : q ≠ path := h op (by simp) q hfp
        simp only [hb, hfp, if_true]
        exact readFile_writeFile_ne _ _ _ _ (Ne.symm hq)

theorem lookupVars_isSome (p : Program) (names : List String)
    (h : ∀ n ∈ names, (blockVar p n).isSome = true) :
    ∃ vs, lookupVars p names = some vs := by
  induction names with
  | nil => exact ⟨[], rfl⟩
  | cons n rest ih =>
    obtain ⟨v, hv⟩ := Option.isSome_iff_exists.mp (h n (by simp))
    obtain ⟨vs, hvs⟩ := ih (fun m hm => h m (by simp [hm]))
    exact ⟨v :: vs, by rw [lookupVars, hv, hvs]⟩

theorem checkFeedArg_strList (names : List String) (h : names ≠ []) :
    checkFeedArg (FeedArg.listArg (names.map FeedElem.strElem)) = Except.ok names := by
  have h1 : (names.map FeedElem.strElem).isEmpty = false := by
    cases names with
    | nil => exact absurd rfl h
    | cons a l => rfl
  have h2 : (names.map FeedElem.strElem).all (fun e => (feedElemStr e).isSome) = true := by
    simp [List.all_map, feedElemStr, Function.comp]
  rw [checkFeedArg]
  have hfun : (feedElemStr ∘ FeedElem.strElem) = (some : String → Option String) := rfl
  simp [h1, h2, List.filterMap_map, hfun, List.filterMap_some]

theorem checkTargetArg_varList (tvs : List Variable) (h : tvs ≠ []) :
    checkTargetArg (TargetArg.listArg (tvs.map TargetElem.varElem)) = Except.ok tvs := by
  have h1 : (tvs.map TargetElem.varElem).isEmpty = false := by
    cases tvs with
    | nil => exact absurd rfl h
    | cons a l => rfl
  have h2 : (tvs.map TargetElem.varElem).all (fun e => (targetElemVar e).isSome) = true := by
    simp [List.all_map, targetElemVar, Function.comp]
  rw [checkTargetArg]
  have hfun : (targetElemVar ∘ TargetElem.varElem) = (some : Variable → Option Variable) := rfl
  simp [h1, h2, List.filterMap_map, hfun, List.filterMap_some]

theorem checkFeedArg_nonstr (l1 l2 : List FeedElem) :
    checkFeedArg (FeedArg.listArg (l1 ++ FeedElem.nonStrElem :: l2)) =
      Except.error PyError.valueError := by
  have hall : (l1 ++ FeedElem.nonStrElem :: l2).all
      (fun e => (feedElemStr e).isSome) = false := by
    simp [List.all_append, feedElemStr]
  rw [checkFeedArg]
  simp [hall]

theorem checkTargetArg_nonvar (l1 l2 : List TargetElem) :
    checkTargetArg (TargetArg.listArg (l1 ++ TargetElem.nonVarElem :: l2)) =
      Except.error PyError.valueError := by
  have hall : (l1 ++ TargetElem.nonVarElem :: l2).all
      (fun e => (targetElemVar e).isSome) = false := by
    simp [List.all_append, targetElemVar]
  rw [checkTargetArg]
  simp [hall]

/-- Evaluation of the success path of save_inference_model: with a
non-empty list of feed names, a non-empty list of target variables and
every feed name present in the optimized pruned program, the call neither
raises nor skips a step: it writes the serialized feed/fetch-augmented
program to dirname ++ "/__model__" and then runs the parameter-save
program built from the original main program. -/
theorem save_inference_model_success (dirname : String) (feedNames : List String)
    (tvs : List Variable) (mp defaultProg : Program)
    (pruneF : Program → List Variable → Program) (infOptF : Program → Program)
    (serializeF : Program → String) (fs : FileSystem)
    (hfeed : feedNames ≠ []) (htv : tvs ≠ [])
    (hlk : ∀ n ∈ feedNames,
      (blockVar (createVar (infOptF (pruneF mp tvs)) (mkFeedVar "feed")) n).isSome = true) :
    save_inference_model dirname (FeedArg.listArg (feedNames.map FeedElem.strElem))
        (TargetArg.listArg (tvs.map TargetElem.varElem)) (some mp) defaultProg
        pruneF infOptF serializeF fs =
      { fs := execRunSave
          (writeFile (if isDir fs dirname = false then makedirs fs dirname else fs)
            (dirname ++ "/__model__")
            (serializeF
              { vars := ((infOptF (pruneF mp tvs)).vars ++ [mkFeedVar "feed"]) ++ [mkFetchVar "fetch"],
                ops := ((feedOpsFrom "feed" 0 feedNames).reverse ++ (infOptF (pruneF mp tvs)).ops)
                  ++ fetchOpsFrom "fetch" 0 (tvs.map Variable.name) }))
          (buildSaveProgram dirname Program.empty (mp.list_vars.filter is_parameter)),
        runs := [buildSaveProgram dirname Program.empty (mp.list_vars.filter is_parameter)],
        inferenceProgram := some
          { vars := ((infOptF (pruneF mp tvs)).vars ++ [mkFeedVar "feed"]) ++ [mkFetchVar "fetch"],
            ops := ((feedOpsFrom "feed" 0 feedNames).reverse ++ (infOptF (pruneF mp tvs)).ops)
              ++ fetchOpsFrom "fetch" 0 (tvs.map Variable.name) },
        err := none } := by
  have hbase := prepend_feed_ops_eq (infOptF (pruneF mp tvs)) feedNames "feed" hlk
  simp only [save_inference_model, checkFeedArg_strList feedNames hfeed,
    checkTargetArg_varList tvs htv, hbase, append_fetch_ops_eq,
    save_params, save_vars, save_vars_list, Program.list_vars]

/-! Concrete sample inputs for witnesses and counterexamples. -/

/-- A plain input variable named x. -/
def varX : Variable :=
  { name := "x", shape := [1], dtype := 0, vtype := VarType.LOD_TENSOR,
    lod_level := 0, persistable := false, isParam := false }

/-- A target variable named t. -/
def varT : Variable :=
  { name := "t", shape := [1], dtype := 0, vtype := VarType.LOD_TENSOR,
    lod_level := 0, persistable := false, isParam := false }

/-- A persistable variable named pv that is not a Parameter. -/
def varPv : Variable :=
  { name := "pv", shape := [1], dtype := 0, vtype := VarType.LOD_TENSOR,
    lod_level := 0, persistable := true, isParam := false }

/-- A Parameter named w. -/
def varW : Variable :=
  { name := "w", shape := [1], dtype := 0, vtype := VarType.LOD_TENSOR,
    lod_level := 0, persistable := true, isParam := true }

/-- A variable named z. -/
def varZ : Variable :=
  { name := "z", shape := [1], dtype := 0, vtype := VarType.LOD_TENSOR,
    lod_level := 0, persistable := false, isParam := false }

/-- A variable named a. -/
def varA : Variable :=
  { name := "a", shape := [1], dtype := 0, vtype := VarType.LOD_TENSOR,
    lod_level := 0, persistable := false, isParam := false }

/-- A program holding x, t and the persistable non-parameter pv. -/
def mainProg1 : Program := { vars := [varX, varT, varPv], ops := [] }

/-- A program holding x, t and the parameter w. -/
def mainProg2 : Program := { vars := [varX, varT, varW], ops := [] }

/-- A program with variables z and a and one pre-existing feed operator. -/
def progFeedZ : Program := { vars := [varZ, varA], ops := [feedOp 0 "feed" "z"] }

/-- A program with variable a and no operators. -/
def progPlain : Program := { vars := [varA], ops := [] }

/-- A file system holding just the empty directory d. -/
def fsD : FileSystem := { dirs := ["d"], files := [] }

/-- A file system holding directory d with a __model__ file in it. -/
def fsModel : FileSystem := { dirs := ["d"], files := [("d/__model__", "pp")] }

/-! Claim theorems. -/

/-- C3: with vars=None, save_vars (resp. load_vars) emits exactly one save
(resp. load) operator for each variable of the main program satisfying the
predicate, in list order, and no operator for the others; save_params and
load_params instantiate the predicate with is_parameter, save_persistables
and load_persistables with is_persistable. -/
theorem vars_selected_by_predicate (dirname : String) (mp defaultProg : Program)
    (p : Variable → Bool) (fs : FileSystem) :
    ((save_vars dirname (ProgArg.progArg mp) defaultProg none p fs).built.map Program.ops
       = some ((mp.list_vars.filter p).map (fun v => mkSaveOp dirname v.name)))
  ∧ ((load_vars dirname (ProgArg.progArg mp) defaultProg none p).built.map Program.ops
       = some ((mp.list_vars.filter p).map (fun v => mkLoadOp dirname v.name)))
  ∧ save_params dirname (ProgArg.progArg mp) defaultProg fs
      = save_vars dirname (ProgArg.progArg mp) defaultProg none is_parameter fs
  ∧ save_persistables dirname (ProgArg.progArg mp) defaultProg fs
      = save_vars dirname (ProgArg.progArg mp) defaultProg none is_persistable fs
  ∧ load_params dirname (ProgArg.progArg mp) defaultProg
      = load_vars dirname (ProgArg.progArg mp) defaultProg none is_parameter
  ∧ load_persistables dirname (ProgArg.progArg mp) defaultProg
      = load_vars dirname (ProgArg.progArg mp) defaultProg none is_persistable := by
  refine ⟨?_, ?_, rfl, rfl, rfl, rfl⟩
  · simp [save_vars, save_vars_list, buildSaveProgram_eq, Program.empty]
  · simp [load_vars, load_vars_list, buildLoadProgram_eq, Program.empty]

/-- C4: with a non-empty explicit vars list, the save program built by
save_vars holds exactly one 'save' operator per listed variable, in order,
the operator for v carrying file_path = os.path.join(dirname, v.name). -/
theorem save_vars_file_path_per_var (dirname : String) (mainArg : ProgArg)
    (defaultProg : Program) (vs : List Variable) (p : Variable → Bool)
    (fs : FileSystem) (hne : vs ≠ []) :
    (save_vars dirname mainArg defaultProg (some vs) p fs).built.map Program.ops
      = some (vs.map (fun v =>
          { type := "save", inputs := [("X", [v.name])], outputs := [],
            attrs := [("file_path", AttrVal.str (osPathJoin dirname v.name))] })) := by
  simp [save_vars, save_vars_list, buildSaveProgram_eq, Program.empty, mkSaveOp]

/-- Witness for C4 at a one-variable list. -/
theorem save_vars_file_path_per_var_w :
    (save_vars "d" ProgArg.noneArg Program.empty (some [varX]) is_parameter fsD).built.map Program.ops
      = some ([varX].map (fun v =>
          { type := "save", inputs := [("X", [v.name])], outputs := [],
            attrs := [("file_path", AttrVal.str (osPathJoin "d" v.name))] })) :=
  save_vars_file_path_per_var "d" ProgArg.noneArg Program.empty [varX] is_parameter fsD
    (by simp)

/-- C5: with vars=None and a main_program that is neither None nor a
Program, save_vars and load_vars raise TypeError having emitted no operator
and run nothing; with main_program=None the default program is used and no
TypeError is raised. -/
theorem vars_none_program_type_check (dirname : String) (defaultProg : Program)
    (p : Variable → Bool) (fs : FileSystem) :
    ((save_vars dirname ProgArg.otherArg defaultProg none p fs).err = some PyError.typeError
      ∧ (save_vars dirname ProgArg.otherArg defaultProg none p fs).built = none
      ∧ (save_vars dirname ProgArg.otherArg defaultProg none p fs).runs = []
      ∧ (save_vars dirname ProgArg.otherArg defaultProg none p fs).fs = fs)
  ∧ ((load_vars dirname ProgArg.otherArg defaultProg none p).err = some PyError.typeError
      ∧ (load_vars dirname ProgArg.otherArg defaultProg none p).built = none
      ∧ (load_vars dirname ProgArg.otherArg defaultProg none p).runs = [])
  ∧ ((save_vars dirname ProgArg.noneArg defaultProg none p fs).err = none
      ∧ (save_vars dirname ProgArg.noneArg defaultProg none p fs).built.map Program.ops
          = some ((defaultProg.list_vars.filter p).map (fun v => mkSaveOp dirname v.name)))
  ∧ ((load_vars dirname ProgArg.noneArg defaultProg none p).err = none
      ∧ (load_vars dirname ProgArg.noneArg defaultProg none p).built.map Program.ops
          = some ((defaultProg.list_vars.filter p).map (fun v => mkLoadOp dirname v.name))) := by
  refine ⟨⟨rfl, rfl, rfl, rfl⟩, ⟨rfl, rfl, rfl⟩, ⟨rfl, ?_⟩, ⟨rfl, ?_⟩⟩
  · simp [save_vars, save_vars_list, buildSaveProgram_eq, Program.empty]
  · simp [load_vars, load_vars_list, buildLoadProgram_eq, Program.empty]

/-- C7: the save/load operators go only into a freshly created program,
which is the single program handed to executor.run; the caller's
main_program and vars arguments come back unchanged. -/
theorem save_load_throwaway_program (dirname : String) (mp defaultProg : Program)
    (vs : List Variable) (p : Variable → Bool) (fs : FileSystem) (mainArg : ProgArg) :
    (∃ P, (save_vars dirname (ProgArg.progArg mp) defaultProg none p fs).built = some P
       ∧ (save_vars dirname (ProgArg.progArg mp) defaultProg none p fs).runs = [P]
       ∧ P.vars = (mp.list_vars.filter p).map clonedVar
       ∧ P.ops = (mp.list_vars.filter p).map (fun v => mkSaveOp dirname v.name))
  ∧ (save_vars dirname (ProgArg.progArg mp) defaultProg none p fs).mainAfter
      = ProgArg.progArg mp
  ∧ (∃ P, (save_vars dirname mainArg defaultProg (some vs) p fs).built = some P
       ∧ (save_vars dirname mainArg defaultProg (some vs) p fs).runs = [P]
       ∧ P.vars = vs.map clonedVar
       ∧ P.ops = vs.map (fun v => mkSaveOp dirname v.name))
  ∧ (save_vars dirname mainArg defaultProg (some vs) p fs).mainAfter = mainArg
  ∧ (save_vars dirname mainArg defaultProg (some vs) p fs).varsAfter = some vs
  ∧ (∃ P, (load_vars dirname (ProgArg.progArg mp) defaultProg none p).built = some P
       ∧ (load_vars dirname (ProgArg.progArg mp) defaultProg none p).runs = [P]
       ∧ P.vars = (mp.list_vars.filter p).map clonedVar
       ∧ P.ops = (mp.list_vars.filter p).map (fun v => mkLoadOp dirname v.name))
  ∧ (load_vars dirname (ProgArg.progArg mp) defaultProg none p).mainAfter
      = ProgArg.progArg mp
  ∧ (∃ P, (load_vars dirname mainArg defaultProg (some vs) p).built = some P
       ∧ (load_vars dirname mainArg defaultProg (some vs) p).runs = [P]
       ∧ P.vars = vs.map clonedVar
       ∧ P.ops = vs.map (fun v => mkLoadOp dirname v.name))
  ∧ (load_vars dirname mainArg defaultProg (some vs) p).mainAfter = mainArg
  ∧ (load_vars dirname mainArg defaultProg (some vs) p).varsAfter = some vs := by
  refine ⟨⟨_, rfl, rfl, ?_, ?_⟩, rfl, ⟨_, rfl, rfl, ?_, ?_⟩, rfl, rfl,
          ⟨_, rfl, rfl, ?_, ?_⟩, rfl, ⟨_, rfl, rfl, ?_, ?_⟩, rfl, rfl⟩ <;>
    simp [save_vars, save_vars_list, load_vars, load_vars_list,
      buildSaveProgram_eq, buildLoadProgram_eq, Program.empty]

/-- C10: load_persistables_if_exist emits one load operator exactly for
those variables of the program that are persistable and whose name is a
file directly in dirname, in list order, and raises no error; a persistable
variable without a matching file is skipped rather than reported. -/
theorem load_persistables_if_exist_filter (dirname : String) (fs : FileSystem)
    (mp defaultProg : Program) :
    ((load_persistables_if_exist dirname fs (ProgArg.progArg mp) defaultProg).built.map Program.ops
       = some ((mp.list_vars.filter
           (fun v => is_persistable v && (filesInDir fs dirname).contains v.name)).map
           (fun v => mkLoadOp dirname v.name)))
  ∧ (load_persistables_if_exist dirname fs (ProgArg.progArg mp) defaultProg).err = none := by
  constructor
  · simp [load_persistables_if_exist, load_vars, load_vars_list,
      buildLoadProgram_eq, Program.empty]
  · rfl

theorem checkFeedArg_error (f : FeedArg) (e : PyError)
    (h : checkFeedArg f = Except.error e) : e = PyError.valueError := by
  cases f with
  | strArg s => cases h
  | listArg l =>
    rw [checkFeedArg] at h
    by_cases hc : (!l.isEmpty && l.all fun e => (feedElemStr e).isSome) = true
    · rw [if_pos hc] at h; cases h
    · rw [if_neg hc] at h; cases h; rfl

theorem checkTargetArg_error (t : TargetArg) (e : PyError)
    (h : checkTargetArg t = Except.error e) : e = PyError.valueError := by
  cases t with
  | varArg v => cases h
  | listArg l =>
    rw [checkTargetArg] at h
    by_cases hc : (!l.isEmpty && l.all fun e => (targetElemVar e).isSome) = true
    · rw [if_pos hc] at h; cases h
    · rw [if_neg hc] at h; cases h; rfl

/-- C6: save_inference_model raises ValueError on a feeded_var_names list
that is empty or holds a non-string, and on a target_vars list that is
empty or holds a non-Variable, in every such case before any directory is
created or file written (the file system comes back unchanged and nothing
is run); a single string or single Variable is accepted and behaves as its
one-element list. -/
theorem save_inference_model_arg_validation (dirname : String) (f : FeedArg)
    (targ : TargetArg) (mainArg : Option Program) (defaultProg : Program)
    (pruneF : Program → List Variable → Program) (infOptF : Program → Program)
    (serializeF : Program → String) (fs : FileSystem) (s : String) (v : Variable)
    (l1 l2 : List FeedElem) (t1 t2 : List TargetElem) :
    (save_inference_model dirname (FeedArg.listArg []) targ mainArg defaultProg
        pruneF infOptF serializeF fs
      = { fs := fs, runs := [], inferenceProgram := none,
          err := some PyError.valueError })
  ∧ (save_inference_model dirname (FeedArg.listArg (l1 ++ FeedElem.nonStrElem :: l2))
        targ mainArg defaultProg pruneF infOptF serializeF fs
      = { fs := fs, runs := [], inferenceProgram := none,
          err := some PyError.valueError })
  ∧ (save_inference_model dirname f (TargetArg.listArg []) mainArg defaultProg
        pruneF infOptF serializeF fs
      = { fs := fs, runs := [], inferenceProgram := none,
          err := some PyError.valueError })
  ∧ (save_inference_model dirname f (TargetArg.listArg (t1 ++ TargetElem.nonVarElem :: t2))
        mainArg defaultProg pruneF infOptF serializeF fs
      = { fs := fs, runs := [], inferenceProgram := none,
          err := some PyError.valueError })
  ∧ (save_inference_model dirname (FeedArg.strArg s) targ mainArg defaultProg
        pruneF infOptF serializeF fs
      = save_inference_model dirname (FeedArg.listArg [FeedElem.strElem s]) targ
          mainArg defaultProg pruneF infOptF serializeF fs)
  ∧ (save_inference_model dirname f (TargetArg.varArg v) mainArg defaultProg
        pruneF infOptF serializeF fs
      = save_inference_model dirname f (TargetArg.listArg [TargetElem.varElem v])
          mainArg defaultProg pruneF infOptF serializeF fs) := by
  refine ⟨rfl, ?_, ?_, ?_, rfl, ?_⟩
  · simp only [save_inference_model, checkFeedArg_nonstr]
  · rcases hcf : checkFeedArg f with e | names
    · have he := checkFeedArg_error f e hcf
      subst he
      simp [save_inference_model, hcf]
    · simp [save_inference_model, hcf, checkTargetArg]
  · rcases hcf : checkFeedArg f with e | names
    · have he := checkFeedArg_error f e hcf
      subst he
      simp [save_inference_model, hcf]
    · simp only [save_inference_model, hcf, checkTargetArg_nonvar]
  · rcases hcf : checkFeedArg f with e | names
    · simp [save_inference_model, hcf]
    · simp [save_inference_model, hcf, checkTargetArg, targetElemVar,
        List.filterMap_cons]

/-- C8: get_inference_program returns exactly
main_program.prune(targets).inference_optimize() with Evaluator targets
expanded into their states and metrics; save_inference_model produces the
same composition augmented with the prepended feed operators (column i for
the i-th feed name, prepended so they sit reversed at the front) and the
appended fetch operators, one per target variable name. -/
theorem inference_program_prune_optimize
    (pruneF : Program → List Variable → Program) (infOptF : Program → Program)
    (targets : TargetsArg) (mainOpt : Option Program) (dirname : String)
    (feedNames : List String) (tvs : List Variable) (mp defaultProg : Program)
    (serializeF : Program → String) (fs : FileSystem)
    (hfeed : feedNames ≠ []) (htv : tvs ≠ [])
    (hlk : ∀ n ∈ feedNames,
      (blockVar (createVar (infOptF (pruneF mp tvs)) (mkFeedVar "feed")) n).isSome = true) :
    (get_inference_program pruneF infOptF targets mainOpt defaultProg
       = infOptF (pruneF
           (match mainOpt with | none => defaultProg | some m => m)
           (expandTargets
             (match targets with
              | TargetsArg.single t => [t]
              | TargetsArg.list l => l))))
  ∧ (∃ ip, (save_inference_model dirname (FeedArg.listArg (feedNames.map FeedElem.strElem))
        (TargetArg.listArg (tvs.map TargetElem.varElem)) (some mp) defaultProg
        pruneF infOptF serializeF fs).inferenceProgram = some ip
      ∧ ip.ops = (feedOpsFrom "feed" 0 feedNames).reverse
          ++ (infOptF (pruneF mp tvs)).ops
          ++ fetchOpsFrom "fetch" 0 (tvs.map Variable.name)
      ∧ (save_inference_model dirname (FeedArg.listArg (feedNames.map FeedElem.strElem))
          (TargetArg.listArg (tvs.map TargetElem.varElem)) (some mp) defaultProg
          pruneF infOptF serializeF fs).err = none) := by
  constructor
  · simp [get_inference_program, expandTargetsLoop_eq]
  · rw [save_inference_model_success dirname feedNames tvs mp defaultProg pruneF infOptF
      serializeF fs hfeed htv hlk]
    exact ⟨_, rfl, by simp [List.append_assoc], rfl⟩

/-- Witness for C8 at concrete inputs. -/
theorem inference_program_prune_optimize_w :
    (get_inference_program (fun p _ => p) (fun p => p)
        (TargetsArg.single (TargetItem.varItem varT)) (some mainProg1) Program.empty
       = (fun (p : Program) => p)
           ((fun (p : Program) (_ : List Variable) => p)
             (match some mainProg1 with | none => Program.empty | some m => m)
             (expandTargets
               (match TargetsArg.single (TargetItem.varItem varT) with
                | TargetsArg.single t => [t]
                | TargetsArg.list l => l))))
  ∧ (∃ ip, (save_inference_model "d" (FeedArg.listArg (["x"].map FeedElem.strElem))
        (TargetArg.listArg ([varT].map TargetElem.varElem)) (some mainProg1) Program.empty
        (fun p _ => p) (fun p => p) (fun _ => "") fsD).inferenceProgram = some ip
      ∧ ip.ops = (feedOpsFrom "feed" 0 ["x"]).reverse
          ++ ((fun (p : Program) => p) ((fun (p : Program) (_ : List Variable) => p) mainProg1 [varT])).ops
          ++ fetchOpsFrom "fetch" 0 ([varT].map Variable.name)
      ∧ (save_inference_model "d" (FeedArg.listArg (["x"].map FeedElem.strElem))
          (TargetArg.listArg ([varT].map TargetElem.varElem)) (some mainProg1) Program.empty
          (fun p _ => p) (fun p => p) (fun _ => "") fsD).err = none) :=
  inference_program_prune_optimize (fun p _ => p) (fun p => p)
    (TargetsArg.single (TargetItem.varItem varT)) (some mainProg1) "d"
    ["x"] [varT] mainProg1 Program.empty (fun _ => "") fsD
    (by simp) (by simp) (by decide)

/-- C1 counterexample: save_inference_model completes on a program whose
variable pv is persistable but not a Parameter, yet the directory holds no
file named pv — the claim that one file per persistable variable is
written fails, because save_inference_model saves via save_params
(is_parameter), not save_persistables. -/
theorem save_inference_model_persistable_cex :
    (save_inference_model "d" (FeedArg.strArg "x") (TargetArg.varArg varT)
        (some mainProg1) Program.empty (fun p _ => p) (fun p => p) (fun _ => "")
        fsD).err = none
  ∧ hasFile (save_inference_model "d" (FeedArg.strArg "x") (TargetArg.varArg varT)
        (some mainProg1) Program.empty (fun p _ => p) (fun p => p) (fun _ => "")
        fsD).fs (osPathJoin "d" varPv.name) = false
  ∧ is_persistable varPv = true
  ∧ varPv ∈ mainProg1.list_vars := by
  refine ⟨by decide, by decide, rfl, by decide⟩

/-- C1 (amended): after save_inference_model completes, the directory
contains one file per Parameter variable of the main program, each named
by the variable's name, plus the __model__ file holding the serialized
description of the feed/fetch-augmented pruned inference program — the
code saves parameters (save_params), not all persistable variables. -/
theorem save_inference_model_param_files (dirname : String)
    (feedNames : List String) (tvs : List Variable) (mp defaultProg : Program)
    (pruneF : Program → List Variable → Program) (infOptF : Program → Program)
    (serializeF : Program → String) (fs : FileSystem)
    (hfeed : feedNames ≠ []) (htv : tvs ≠ [])
    (hlk : ∀ n ∈ feedNames,
      (blockVar (createVar (infOptF (pruneF mp tvs)) (mkFeedVar "feed")) n).isSome = true)
    (hnm : ∀ v ∈ mp.list_vars, is_parameter v = true →
      osPathJoin dirname v.name ≠ dirname ++ "/__model__") :
    (save_inference_model dirname (FeedArg.listArg (feedNames.map FeedElem.strElem))
        (TargetArg.listArg (tvs.map TargetElem.varElem)) (some mp) defaultProg
        pruneF infOptF serializeF fs).err = none
  ∧ (∀ v ∈ mp.list_vars, is_parameter v = true →
      hasFile (save_inference_model dirname (FeedArg.listArg (feedNames.map FeedElem.strElem))
          (TargetArg.listArg (tvs.map TargetElem.varElem)) (some mp) defaultProg
          pruneF infOptF serializeF fs).fs (osPathJoin dirname v.name) = true)
  ∧ (∃ ip, (save_inference_model dirname (FeedArg.listArg (feedNames.map FeedElem.strElem))
        (TargetArg.listArg (tvs.map TargetElem.varElem)) (some mp) defaultProg
        pruneF infOptF serializeF fs).inferenceProgram = some ip
      ∧ readFile (save_inference_model dirname (FeedArg.listArg (feedNames.map FeedElem.strElem))
          (TargetArg.listArg (tvs.map TargetElem.varElem)) (some mp) defaultProg
          pruneF infOptF serializeF fs).fs (dirname ++ "/__model__")
        = some (serializeF ip)) := by
  rw [save_inference_model_success dirname feedNames tvs mp defaultProg pruneF infOptF
    serializeF fs hfeed htv hlk]
  have hops : (buildSaveProgram dirname Program.empty (mp.list_vars.filter is_parameter)).ops
      = (mp.list_vars.filter is_parameter).map (fun v => mkSaveOp dirname v.name) := by
    simp [buildSaveProgram_eq, Program.empty]
  refine ⟨rfl, ?_, ?_⟩
  · intro v hv hp
    apply hasFile_execRunSaveOps_mem _ _ _ (mkSaveOp dirname v.name)
    · rw [hops]
      exact List.mem_map_of_mem _ (List.mem_filter.mpr ⟨hv, hp⟩)
    · rfl
    · rfl
  · refine ⟨_, rfl, ?_⟩
    rw [execRunSave, readFile_execRunSaveOps_ne]
    · exact readFile_writeFile_self _ _ _
    · intro op hop q hq
      rw [hops] at hop
      obtain ⟨v, hv, hvop⟩ := List.mem_map.mp hop
      have hvmem := List.mem_filter.mp hv
      subst hvop
      have : opFilePath (mkSaveOp dirname v.name) = some (osPathJoin dirname v.name) := rfl
      rw [this] at hq
      cases hq
      exact hnm v hvmem.1 hvmem.2

/-- Witness for the amended C1 at a program with one parameter w. -/
theorem save_inference_model_param_files_w :
    (save_inference_model "d" (FeedArg.listArg (["x"].map FeedElem.strElem))
        (TargetArg.listArg ([varT].map TargetElem.varElem)) (some mainProg2) Program.empty
        (fun p _ => p) (fun p => p) (fun _ => "") fsD).err = none
  ∧ (∀ v ∈ mainProg2.list_vars, is_parameter v = true →
      hasFile (save_inference_model "d" (FeedArg.listArg (["x"].map FeedElem.strElem))
          (TargetArg.listArg ([varT].map TargetElem.varElem)) (some mainProg2) Program.empty
          (fun p _ => p) (fun p => p) (fun _ => "") fsD).fs (osPathJoin "d" v.name) = true)
  ∧ (∃ ip, (save_inference_model "d" (FeedArg.listArg (["x"].map FeedElem.strElem))
        (TargetArg.listArg ([varT].map TargetElem.varElem)) (some mainProg2) Program.empty
        (fun p _ => p) (fun p => p) (fun _ => "") fsD).inferenceProgram = some ip
      ∧ readFile (save_inference_model "d" (FeedArg.listArg (["x"].map FeedElem.strElem))
          (TargetArg.listArg ([varT].map TargetElem.varElem)) (some mainProg2) Program.empty
          (fun p _ => p) (fun p => p) (fun _ => "") fsD).fs ("d" ++ "/__model__")
        = some ((fun _ => "") ip)) :=
  save_inference_model_param_files "d" ["x"] [varT] mainProg2 Program.empty
    (fun p _ => p) (fun p => p) (fun _ => "") fsD
    (by simp) (by simp) (by decide) (by decide)

/-- C2 counterexample: the directory d exists but holds no __model__ file;
load_inference_model does not check the file's existence before reading —
the open itself fails with an IO error, which is not the module's
existence-check ValueError. -/
theorem load_inference_model_no_file_check_cex :
    (load_inference_model "d" fsD (fun _ => Program.empty)).err = some PyError.ioError
  ∧ isDir fsD "d" = true
  ∧ (some PyError.ioError ≠ some PyError.valueError) := by
  refine ⟨by decide, by decide, by decide⟩

/-- C2 (amended): load_inference_model raises ValueError exactly when
dirname is not an existing directory; the __model__ file is opened with no
prior existence check, so its absence surfaces as the unhandled IO error
of the open; when the directory and the file both exist (and the
fetch-target lookups in the parsed program succeed) no error is raised. -/
theorem load_inference_model_existence_checks (dirname : String) (fs : FileSystem)
    (parseF : String → Program) :
    (isDir fs dirname = false →
      load_inference_model dirname fs parseF =
        { program := none, feedTargetNames := [], fetchTargets := [], runs := [],
          err := some PyError.valueError })
  ∧ (isDir fs dirname = true → readFile fs (dirname ++ "/__model__") = none →
      load_inference_model dirname fs parseF =
        { program := none, feedTargetNames := [], fetchTargets := [], runs := [],
          err := some PyError.ioError })
  ∧ (∀ s, isDir fs dirname = true → readFile fs (dirname ++ "/__model__") = some s →
      (∀ n ∈ get_fetch_targets_names (parseF s),
        (blockVar (parseF s) n).isSome = true) →
      (load_inference_model dirname fs parseF).err = none) := by
  refine ⟨?_, ?_, ?_⟩
  · intro h
    rw [load_inference_model, if_pos h]
  · intro h1 h2
    rw [load_inference_model, if_neg (by simp [h1]), h2]
  · intro s h1 h2 hlk
    obtain ⟨vs, hvs⟩ := lookupVars_isSome (parseF s) _ hlk
    simp [load_inference_model, h1, h2, hvs]

/-- Witness for the amended C2, exercising all three branches. -/
theorem load_inference_model_existence_checks_w :
    (load_inference_model "nodir" fsD (fun _ => Program.empty) =
      { program := none, feedTargetNames := [], fetchTargets := [], runs := [],
        err := some PyError.valueError })
  ∧ (load_inference_model "d" fsD (fun _ => Program.empty) =
      { program := none, feedTargetNames := [], fetchTargets := [], runs := [],
        err := some PyError.ioError })
  ∧ (load_inference_model "d" fsModel (fun _ => Program.empty)).err = none :=
  ⟨(load_inference_model_existence_checks "nodir" fsD (fun _ => Program.empty)).1
      (by decide),
   (load_inference_model_existence_checks "d" fsD (fun _ => Program.empty)).2.1
      (by decide) (by decide),
   (load_inference_model_existence_checks "d" fsModel (fun _ => Program.empty)).2.2
      "pp" (by decide) (by decide) (by decide)⟩

/-- C9 counterexample: on a program already holding a feed operator (for
z), prepending feed ops for the name list [a] and reading the feed targets
back returns [z, a], not [a] — the claim fails for programs with
pre-existing feed markers. -/
theorem feed_roundtrip_cex :
    prepend_feed_ops progFeedZ ["a"] "feed" =
      Except.ok { vars := progFeedZ.vars ++ [mkFeedVar "feed"],
                  ops := [feedOp 0 "feed" "a", feedOp 0 "feed" "z"] }
  ∧ Except.map get_feed_targets_names (prepend_feed_ops progFeedZ ["a"] "feed")
      = Except.ok ["z", "a"]
  ∧ (["z", "a"] : List String) ≠ ["a"] := by
  refine ⟨rfl, rfl, by decide⟩

/-- C9 (amended): on a program with no pre-existing 'feed' operator the
prepend_feed_ops/get_feed_targets_names round trip returns exactly the
given names in order (the prepend-reversal and the insert-at-front
re-reversal cancel), and on a program with no pre-existing 'fetch'
operator the append_fetch_ops/get_fetch_targets_names round trip does as
well. -/
theorem feed_fetch_marker_roundtrip (p : Program) (names : List String)
    (holdF holdT : String)
    (hnf : ∀ op ∈ p.ops, op.type ≠ "feed")
    (hlk : ∀ n ∈ names, (blockVar (createVar p (mkFeedVar holdF)) n).isSome = true)
    (hnt : ∀ op ∈ p.ops, op.type ≠ "fetch") :
    (∃ p1, prepend_feed_ops p names holdF = Except.ok p1
        ∧ get_feed_targets_names p1 = names)
  ∧ get_fetch_targets_names (append_fetch_ops p names holdT) = names := by
  constructor
  · refine ⟨_, prepend_feed_ops_eq p names holdF hlk, ?_⟩
    rw [get_feed_targets_names_eq]
    have hnil : p.ops.filterMap feedOutOf = [] :=
      List.filterMap_eq_nil_iff.mpr (fun op hop => feedOutOf_none_of_not_feed (hnf op hop))
    simp [List.filterMap_append, List.filterMap_reverse, feedOutOf_feedOpsFrom, hnil]
  · rw [append_fetch_ops_eq, get_fetch_targets_names_eq]
    have hnil : p.ops.filterMap fetchInOf = [] :=
      List.filterMap_eq_nil_iff.mpr (fun op hop => fetchInOf_none_of_not_fetch (hnt op hop))
    simp [List.filterMap_append, fetchInOf_fetchOpsFrom, hnil]

/-- Witness for the amended C9 at a one-variable program and name list. -/
theorem feed_fetch_marker_roundtrip_w :
    (∃ p1, prepend_feed_ops progPlain ["a"] "feed" = Except.ok p1
        ∧ get_feed_targets_names p1 = ["a"])
  ∧ get_fetch_targets_names (append_fetch_ops progPlain ["a"] "fetch") = ["a"] :=
  feed_fetch_marker_roundtrip progPlain ["a"] "feed" "fetch"
    (by simp [progPlain]) (by decide) (by simp [progPlain])

end PaddleFluid
